import Mathlib

/-!
Verification of the ThinkNet real-time mind-map collaboration engine.

This file gives a shallow embedding of the relevant parts of the source
(`thinknet-backend.cjs`, the socket.io event handlers and the Express HTTP
handlers, plus the client-side editor's autosave/debounce and node mutation
logic) and proves or refutes the specification claims about them.

Conventions of the embedding:
- The Mongo document store is an association list `List (String × MindMap)`
  keyed by document id; `save` replaces the value at its key.
- socket.io rooms (`socket.join` / `socket.to(...).emit`) are association
  lists from document id to the list of member session ids;
  `socket.to(room).emit` delivers to every member except the sender, while
  `io.to(room).emit` delivers to every member.
- Emitted wire events are accumulated in an `emitted` log of
  (recipient session id, event) pairs.
- `Date.now()` timestamps are passed in as explicit `Nat` parameters.
- Each `mindmap.save()` in the source increments a `dbWrites` counter in
  addition to updating the store, so that the number of durable writes is
  observable.
-/

namespace ThinkNet

/-- A `{id, username}` object as stored in the `activeUsers` sets and
carried by the presence wire events. -/
structure UserRef where
  id : String
  username : String
deriving DecidableEq, Repr

/-- A mind-map node as stored in the database (`NodeSchema`). -/
structure Node where
  id : String
  x : Int
  y : Int
  text : String
  level : Nat
  color : String
  createdBy : String
  createdAt : Nat
  updatedAt : Nat
deriving DecidableEq, Repr

/-- A link between two nodes (`LinkSchema`). -/
structure Link where
  source : String
  target : String
deriving DecidableEq, Repr

/-- A comment on a node (`CommentSchema`). -/
structure Comment where
  id : String
  text : String
  author : String
  authorId : String
  timestamp : Nat
deriving DecidableEq, Repr

/-- Collaborator permission enum (`enum: ["read", "write", "admin"]`). -/
inductive CollabPerm where
  | read
  | write
  | admin
deriving DecidableEq, Repr

/-- One entry of `MindMapSchema.collaborators`. -/
structure Collaborator where
  user : String
  permission : CollabPerm
deriving DecidableEq, Repr

/-- A mind-map document (`MindMapSchema`).  `comments` is the Mongoose
`Map` from node id to the node's comment sequence, embedded as an
association list. -/
structure MindMap where
  title : String
  description : String
  nodes : List Node
  links : List Link
  comments : List (String × List Comment)
  owner : String
  collaborators : List Collaborator
  isPublic : Bool
  tags : List String
  createdAt : Nat
  updatedAt : Nat
  lastModifiedBy : String
deriving DecidableEq, Repr

/-- Session (socket) identifier. -/
abbrev SessionId := Nat

/-- One authenticated socket: `socket.userId`, `socket.username` are set by
`socketAuth`; `socket.currentMindmap` is set by the `join_mindmap`
handler. -/
structure Session where
  sid : SessionId
  userId : String
  username : String
  currentMindmap : Option String
deriving DecidableEq, Repr

/-- A partial node update as carried by the `node_update` wire payload and
merged with `Object.assign(mindmap.nodes[nodeIndex], updates)`: each field
present in the payload overwrites the stored field. -/
structure NodeUpdate where
  id : Option String := none
  x : Option Int := none
  y : Option Int := none
  text : Option String := none
  level : Option Nat := none
  color : Option String := none
  createdBy : Option String := none
  createdAt : Option Nat := none
  updatedAt : Option Nat := none
deriving DecidableEq, Repr

/-- `Object.assign(n, u)`: fields present in `u` overwrite those of `n`. -/
def applyNodeUpdate (n : Node) (u : NodeUpdate) : Node :=
  { id := u.id.getD n.id
    x := u.x.getD n.x
    y := u.y.getD n.y
    text := u.text.getD n.text
    level := u.level.getD n.level
    color := u.color.getD n.color
    createdBy := u.createdBy.getD n.createdBy
    createdAt := u.createdAt.getD n.createdAt
    updatedAt := u.updatedAt.getD n.updatedAt }

/-- Events emitted by the engine to clients (the wire contract). -/
inductive ServerEvent where
  | errorMsg (msg : String)
  | userJoined (u : UserRef)
  | activeUsersEv (users : List UserRef)
  | userLeft (u : UserRef)
  | nodeUpdated (nodeId : String) (updates : NodeUpdate) (updatedBy : String)
  | cursorMoved (userId : String) (username : String) (x : Int) (y : Int)
  | commentAdded (nodeId : String) (c : Comment)
  | mindmapUpdated (mm : MindMap)
deriving DecidableEq, Repr

/-- Set the value stored at a key of an association list (the semantics of
`Map.set` and of saving a document back to the store by id). -/
def setAssoc {β : Type} : List (String × β) → String → β → List (String × β)
  | [], k, v => [(k, v)]
  | (k', v') :: rest, k, v =>
      if k' == k then (k, v) :: rest else (k', v') :: setAssoc rest k v

/-- Remove the entry stored at a key of an association list
(`Map.delete`, `findByIdAndDelete`). -/
def removeAssoc {β : Type} (l : List (String × β)) (k : String) :
    List (String × β) :=
  l.filter (fun p => p.1 ≠ k)

/-- The whole in-memory state of the backend process plus the database and
the log of emitted wire events. -/
structure EngineState where
  /-- The Mongo store: document id → document. -/
  db : List (String × MindMap)
  /-- The process-wide `activeUsers` map: document id → JS `Set` of
  `{id, username}` objects, embedded as the list of inserted objects. -/
  activeUsers : List (String × List UserRef)
  /-- socket.io room membership: document id → session ids in room
  `mindmap:<id>`. -/
  rooms : List (String × List SessionId)
  /-- Currently connected sockets. -/
  sessions : List Session
  /-- Log of emitted events: (recipient session, event). -/
  emitted : List (SessionId × ServerEvent)
  /-- Number of `mindmap.save()` / durable write calls performed. -/
  dbWrites : Nat
deriving DecidableEq, Repr

/-- `socket.to(room).emit ev`: deliver `ev` to every member of the room
except the sender. -/
def broadcastTo (room : List SessionId) (sender : SessionId)
    (ev : ServerEvent) : List (SessionId × ServerEvent) :=
  (room.filter (fun r => r ≠ sender)).map (fun r => (r, ev))

/-- `io.to(room).emit ev`: deliver `ev` to every member of the room. -/
def broadcastAll (room : List SessionId) (ev : ServerEvent) :
    List (SessionId × ServerEvent) :=
  room.map (fun r => (r, ev))

/-- The shared read-access check of the backend (`GET /api/mindmaps/:id`,
the `join_mindmap` handler and the comment route): owner, any collaborator
entry, or a public document. -/
def hasReadAccess (userId : String) (mm : MindMap) : Bool :=
  mm.owner == userId
    || mm.collaborators.any (fun c => c.user == userId)
    || mm.isPublic

/-- The `canEdit` check of `PUT /api/mindmaps/:id`: owner, or a
collaborator entry whose permission is in `["write", "admin"]`. -/
def canEditMindmap (userId : String) (mm : MindMap) : Bool :=
  mm.owner == userId
    || mm.collaborators.any (fun c =>
        c.user == userId
          && (c.permission == CollabPerm.write
                || c.permission == CollabPerm.admin))

/-- JS `Set.delete` called with a freshly constructed object literal
(`mindmapUsers.delete({ id: ..., username: ... })`): JS sets compare
objects by reference (SameValueZero), and a fresh literal is a new
reference, so no stored element ever matches and the set is unchanged. -/
def jsSetDeleteFresh (s : List UserRef) (_fresh : UserRef) : List UserRef :=
  s

/-- The `join_mindmap` socket handler (thinknet-backend.cjs lines
560-602): fetch the document, check read access, `socket.join` the room,
record `currentMindmap`, add a fresh `{id, username}` object to the
`activeUsers` set, broadcast `user_joined` to the other room members, and
send the full `active_users` set (including the just-added entry) to the
joining socket. -/
def joinMindmap (st : EngineState) (sid : SessionId) (mmId : String) :
    EngineState :=
  match st.sessions.find? (fun t => t.sid == sid) with
  | none => st
  | some s =>
    match st.db.lookup mmId with
    | none =>
        { st with emitted :=
            st.emitted ++ [(sid, ServerEvent.errorMsg "Mind map not found")] }
    | some mm =>
      if hasReadAccess s.userId mm then
        let roomNew := ((st.rooms.lookup mmId).getD []) ++ [sid]
        let sessions := st.sessions.map (fun t =>
          if t.sid == sid then { t with currentMindmap := some mmId } else t)
        let usersNew :=
          ((st.activeUsers.lookup mmId).getD [])
            ++ [{ id := s.userId, username := s.username }]
        { st with
            rooms := setAssoc st.rooms mmId roomNew
            sessions := sessions
            activeUsers := setAssoc st.activeUsers mmId usersNew
            emitted := st.emitted
              ++ broadcastTo roomNew sid
                  (ServerEvent.userJoined
                    { id := s.userId, username := s.username })
              ++ [(sid, ServerEvent.activeUsersEv usersNew)] }
      else
        { st with emitted :=
            st.emitted ++ [(sid, ServerEvent.errorMsg "Access denied")] }

/-- Merge a `node_update` into the first node whose id matches
(`findIndex` followed by `Object.assign` on the found element). -/
def updateFirstNode : List Node → String → NodeUpdate → List Node
  | [], _, _ => []
  | n :: rest, nodeId, u =>
      if n.id == nodeId then applyNodeUpdate n u :: rest
      else n :: updateFirstNode rest nodeId u

/-- The database part of the `node_update` handler: fetch the document; if
it exists and `findIndex` locates the node, merge the update, stamp
`updatedAt` and `lastModifiedBy`, and save.  Returns the new store and
whether a save was performed. -/
def nodeUpdateDb (db : List (String × MindMap)) (mmId nodeId : String)
    (u : NodeUpdate) (userId : String) (now : Nat) :
    List (String × MindMap) × Bool :=
  match db.lookup mmId with
  | none => (db, false)
  | some mm =>
    if mm.nodes.any (fun n => n.id == nodeId) then
      (setAssoc db mmId
        { mm with
            nodes := updateFirstNode mm.nodes nodeId u
            updatedAt := now
            lastModifiedBy := userId }, true)
    else (db, false)

/-- The `node_update` socket handler (thinknet-backend.cjs lines 604-629):
if the socket has no `currentMindmap` the event is ignored; otherwise the
`node_updated` event is broadcast to the other room members first, and the
document update and save are then attempted. -/
def nodeUpdate (st : EngineState) (sid : SessionId) (nodeId : String)
    (u : NodeUpdate) (now : Nat) : EngineState :=
  match st.sessions.find? (fun t => t.sid == sid) with
  | none => st
  | some s =>
    match s.currentMindmap with
    | none => st
    | some mmId =>
      let room := (st.rooms.lookup mmId).getD []
      let res := nodeUpdateDb st.db mmId nodeId u s.userId now
      { st with
          emitted := st.emitted
            ++ broadcastTo room sid
                (ServerEvent.nodeUpdated nodeId u s.username)
          db := res.1
          dbWrites := st.dbWrites + (if res.2 then 1 else 0) }

/-- The `cursor_move` socket handler (thinknet-backend.cjs lines 631-640):
ignored without a `currentMindmap`, otherwise relayed to the other room
members; never touches the database. -/
def cursorMove (st : EngineState) (sid : SessionId) (x y : Int) :
    EngineState :=
  match st.sessions.find? (fun t => t.sid == sid) with
  | none => st
  | some s =>
    match s.currentMindmap with
    | none => st
    | some mmId =>
      let room := (st.rooms.lookup mmId).getD []
      { st with
          emitted := st.emitted
            ++ broadcastTo room sid
                (ServerEvent.cursorMoved s.userId s.username x y) }

/-- The `disconnect` handler (thinknet-backend.cjs lines 642-663).  By the
time socket.io fires `disconnect` the socket has already left all of its
rooms; the handler then attempts to remove the user from the `activeUsers`
set by constructing a fresh `{id, username}` literal (which never matches,
see `jsSetDeleteFresh`), reclaims the room entry only if the set became
empty, and otherwise broadcasts `user_left` to the room. -/
def disconnect (st : EngineState) (sid : SessionId) : EngineState :=
  match st.sessions.find? (fun t => t.sid == sid) with
  | none => st
  | some s =>
    let rooms := st.rooms.map (fun p => (p.1, p.2.filter (fun r => r ≠ sid)))
    let st1 := { st with
        rooms := rooms
        sessions := st.sessions.filter (fun t => t.sid ≠ sid) }
    match s.currentMindmap with
    | none => st1
    | some mmId =>
      match st1.activeUsers.lookup mmId with
      | none => st1
      | some users =>
        let users1 :=
          jsSetDeleteFresh users { id := s.userId, username := s.username }
        if users1.length == 0 then
          { st1 with activeUsers := removeAssoc st1.activeUsers mmId }
        else
          { st1 with
              activeUsers := setAssoc st1.activeUsers mmId users1
              emitted := st1.emitted
                ++ broadcastTo ((rooms.lookup mmId).getD []) sid
                    (ServerEvent.userLeft
                      { id := s.userId, username := s.username }) }

/-- Errors of the HTTP surface (`400/403/404` responses). -/
inductive ApiError where
  | notFound
  | accessDenied
  | invalidInput
deriving DecidableEq, Repr

/-- Whether an `Except` result is a success. -/
def exceptOk {α : Type} : Except ApiError α → Bool
  | Except.ok _ => true
  | Except.error _ => false

/-- JS `a || b` on a possibly-absent string: `undefined` and `""` are
falsy. -/
def jsOrStr (o : Option String) (d : String) : String :=
  match o with
  | some s => if s == "" then d else s
  | none => d

/-- An incoming node object of a `PUT /api/mindmaps/:id` request body
(audit fields may be absent). -/
structure NodeInput where
  id : String
  x : Int
  y : Int
  text : String
  level : Nat
  color : String
  createdBy : Option String := none
  createdAt : Option Nat := none
deriving DecidableEq, Repr

/-- Processing of one incoming node by the PUT handler:
`createdBy: node.createdBy || req.user.username`,
`createdAt: node.createdAt || new Date()`, `updatedAt: new Date()`. -/
def processNodeInput (username : String) (now : Nat) (n : NodeInput) :
    Node :=
  { id := n.id
    x := n.x
    y := n.y
    text := n.text
    level := n.level
    color := n.color
    createdBy := jsOrStr n.createdBy username
    createdAt := n.createdAt.getD now
    updatedAt := now }

/-- Request body of `PUT /api/mindmaps/:id`; `none` is an absent field. -/
structure PutBody where
  title : Option String := none
  description : Option String := none
  nodes : Option (List NodeInput) := none
  links : Option (List Link) := none
  isPublic : Option Bool := none
  tags : Option (List String) := none
deriving DecidableEq, Repr

/-- The `PUT /api/mindmaps/:id` handler (thinknet-backend.cjs lines
371-423): permission check `canEdit`, then field-by-field merge of the
body into the document (`if (title)` is a JS truthiness test so an empty
string is skipped; `if (nodes)` replaces the node list wholesale with the
processed client-supplied list; `description`/`isPublic` are guarded by
`!== undefined`), save, and an `io.to(room)` broadcast of
`mindmap_updated`. -/
def putMindmap (st : EngineState) (userId username mmId : String)
    (body : PutBody) (now : Nat) : Except ApiError MindMap × EngineState :=
  match st.db.lookup mmId with
  | none => (Except.error ApiError.notFound, st)
  | some mm =>
    if canEditMindmap userId mm then
      let mm1 := match body.title with
        | some t => if t == "" then mm else { mm with title := t }
        | none => mm
      let mm2 := match body.description with
        | some d => { mm1 with description := d }
        | none => mm1
      let mm3 := match body.nodes with
        | some ns => { mm2 with nodes := ns.map (processNodeInput username now) }
        | none => mm2
      let mm4 := match body.links with
        | some ls => { mm3 with links := ls }
        | none => mm3
      let mm5 := match body.isPublic with
        | some p => { mm4 with isPublic := p }
        | none => mm4
      let mm6 := match body.tags with
        | some ts => { mm5 with tags := ts }
        | none => mm5
      let mm7 := { mm6 with updatedAt := now, lastModifiedBy := userId }
      let room := (st.rooms.lookup mmId).getD []
      (Except.ok mm7,
        { st with
            db := setAssoc st.db mmId mm7
            dbWrites := st.dbWrites + 1
            emitted := st.emitted
              ++ broadcastAll room (ServerEvent.mindmapUpdated mm7) })
    else (Except.error ApiError.accessDenied, st)

/-- The `DELETE /api/mindmaps/:id` handler (thinknet-backend.cjs lines
425-444): only the owner may delete. -/
def deleteMindmap (st : EngineState) (userId mmId : String) :
    Except ApiError Unit × EngineState :=
  match st.db.lookup mmId with
  | none => (Except.error ApiError.notFound, st)
  | some mm =>
    if mm.owner == userId then
      (Except.ok (), { st with db := removeAssoc st.db mmId })
    else (Except.error ApiError.accessDenied, st)

/-- Whitespace characters recognised by JS `String.prototype.trim`
(the ones relevant to this embedding). -/
def isWs (c : Char) : Bool :=
  c == ' ' || c == '\t' || c == '\n' || c == '\r'

/-- JS `jsTrim text()`: strip leading and trailing whitespace. -/
def jsTrim (s : String) : String :=
  String.mk (((s.data.dropWhile isWs).reverse.dropWhile isWs).reverse)

/-- The `POST /api/mindmaps/:id/comments/:nodeId` handler
(thinknet-backend.cjs lines 446-503): reject empty/whitespace-only text,
then fetch the document, check read-level access, append the trimmed text
with a generated id (`Date.now().toString()`) and timestamp to the node's
comment sequence, save, and `io.to(room)` broadcast `comment_added`. -/
def addComment (st : EngineState) (userId username mmId nodeId text : String)
    (now : Nat) : Except ApiError Comment × EngineState :=
  if jsTrim text == "" then (Except.error ApiError.invalidInput, st)
  else
    match st.db.lookup mmId with
    | none => (Except.error ApiError.notFound, st)
    | some mm =>
      if hasReadAccess userId mm then
        let c : Comment :=
          { id := toString now
            text := jsTrim text
            author := username
            authorId := userId
            timestamp := now }
        let old := (mm.comments.lookup nodeId).getD []
        let mm1 := { mm with
            comments := setAssoc mm.comments nodeId (old ++ [c])
            updatedAt := now }
        let room := (st.rooms.lookup mmId).getD []
        (Except.ok c,
          { st with
              db := setAssoc st.db mmId mm1
              dbWrites := st.dbWrites + 1
              emitted := st.emitted
                ++ broadcastAll room (ServerEvent.commentAdded nodeId c) })
      else (Except.error ApiError.accessDenied, st)

/-! ### The Access Gate, modelled from the spec

The spec describes a single `authorize(userId, document, desiredLevel)`
function; the source implements the equivalent checks inline
(`hasReadAccess`, `canEditMindmap`, the owner test of the delete route).
The following definition follows the spec's words and is compared with the
source predicates in the claim about the Access Gate. -/

/-- Effective permission levels of the spec's Access Gate. -/
inductive EffectivePerm where
  | denied
  | read
  | write
  | admin
  | owner
deriving DecidableEq, Repr

/-- Permission of a collaborator entry, as an effective permission. -/
def permOfCollab : CollabPerm → EffectivePerm
  | CollabPerm.read => EffectivePerm.read
  | CollabPerm.write => EffectivePerm.write
  | CollabPerm.admin => EffectivePerm.admin

/-- Numeric strength of an effective permission. -/
def permLevel : EffectivePerm → Nat
  | EffectivePerm.denied => 0
  | EffectivePerm.read => 1
  | EffectivePerm.write => 2
  | EffectivePerm.admin => 3
  | EffectivePerm.owner => 4

/-- Modelled from the spec: effective permission is `admin/owner` if
`document.owner == userId`; else the matching entry in
`document.collaborators` if present; else `read` if `document.isPublic`;
else `Denied`. -/
def effectivePermission (userId : String) (mm : MindMap) : EffectivePerm :=
  if mm.owner == userId then EffectivePerm.owner
  else
    match mm.collaborators.find? (fun c => c.user == userId) with
    | some c => permOfCollab c.permission
    | none => if mm.isPublic then EffectivePerm.read else EffectivePerm.denied

/-! ### The client-side editor (part_000)

The editor component holds the node/link state, applies the three local
mutations (`addNode`, `deleteNode`, `saveEdit`), and debounces saves with
`scheduleAutoSave`: every data change marks unsaved changes and (re)sets a
2000 ms timer whose callback performs one full-document save. -/

/-- A node as held in the client editor state (the D3 fields only). -/
structure ClientNode where
  id : String
  x : Int
  y : Int
  text : String
  level : Nat
  color : String
deriving DecidableEq, Repr

/-- The client's document state: the `nodes` and `links` React state. -/
structure ClientDoc where
  nodes : List ClientNode
  links : List Link
deriving DecidableEq, Repr

/-- The three local mutations of the editor. -/
inductive ClientMut where
  /-- `addNode`: append a new child node and a link from the selected
  node to it. -/
  | addNode (selectedId : String) (newNode : ClientNode)
  /-- `deleteNode`: remove the selected node and its incident links;
  a no-op when the selected node is the root. -/
  | deleteNode (selectedId : String)
  /-- `saveEdit`: set the text of the selected node. -/
  | saveEdit (selectedId : String) (text : String)
deriving DecidableEq, Repr

/-- Apply one client mutation to the document state, as the source does. -/
def applyMut (d : ClientDoc) : ClientMut → ClientDoc
  | ClientMut.addNode selectedId newNode =>
      { nodes := d.nodes ++ [newNode]
        links := d.links ++ [{ source := selectedId, target := newNode.id }] }
  | ClientMut.deleteNode selectedId =>
      if selectedId == "root" then d
      else
        { nodes := d.nodes.filter (fun n => n.id ≠ selectedId)
          links := d.links.filter (fun l =>
            l.source ≠ selectedId && l.target ≠ selectedId) }
  | ClientMut.saveEdit selectedId text =>
      { d with nodes := d.nodes.map (fun n =>
          if n.id == selectedId then { n with text := text } else n) }

/-- Apply a timed sequence of mutations (times are ignored here; they
matter to the debounce logic). -/
def applyMuts (d : ClientDoc) (evs : List (Nat × ClientMut)) : ClientDoc :=
  evs.foldl (fun d tm => applyMut d tm.2) d

/-- The autosave quiet period: 2000 ms
(`setTimeout(..., 2000)` in `scheduleAutoSave`). -/
def quietPeriod : Nat := 2000

/-- The client editor's autosave state: the document, the
`hasUnsavedChanges` ref, the pending `setTimeout` expiry (absolute time),
and the log of full-document snapshots sent to `mindMapAPI.update`
(the durable replace writes). -/
structure AutosaveState where
  doc : ClientDoc
  hasUnsavedChanges : Bool
  saveTimeout : Option Nat
  saves : List ClientDoc
deriving DecidableEq, Repr

/-- The autosave timer callback: if there are unsaved changes,
`saveMindMap` runs; it returns early when the node list is empty and
otherwise performs one full-document replace and clears the
unsaved-changes flag. -/
def fireTimer (s : AutosaveState) : AutosaveState :=
  let s1 := { s with saveTimeout := none }
  if s1.hasUnsavedChanges then
    if s1.doc.nodes.isEmpty then s1
    else { s1 with
        saves := s1.saves ++ [s1.doc]
        hasUnsavedChanges := false }
  else s1

/-- `scheduleAutoSave` at absolute time `t`: mark unsaved changes, clear
any pending timer, and arm a new timer for `t + quietPeriod`. -/
def scheduleAutoSave (s : AutosaveState) (t : Nat) : AutosaveState :=
  { s with hasUnsavedChanges := true, saveTimeout := some (t + quietPeriod) }

/-- One local mutation arriving at absolute time `t`: any timer already
due has fired beforehand; then the mutation is applied and
`scheduleAutoSave` re-arms the debounce (the data-change effect hook). -/
def stepMut (s : AutosaveState) (t : Nat) (m : ClientMut) : AutosaveState :=
  let s1 := match s.saveTimeout with
    | some e => if e ≤ t then fireTimer s else s
    | none => s
  scheduleAutoSave { s1 with doc := applyMut s1.doc m } t

/-- Run a timed sequence of mutations through the editor. -/
def runMuts (s : AutosaveState) : List (Nat × ClientMut) → AutosaveState
  | [] => s
  | (t, m) :: rest => runMuts (stepMut s t m) rest

/-- All gaps between consecutive mutation times (starting from `prev`) are
nondecreasing and strictly below the quiet period. -/
def gapsLt : Nat → List (Nat × ClientMut) → Bool
  | _, [] => true
  | prev, (t, _) :: rest =>
      decide (prev ≤ t) && decide (t < prev + quietPeriod) && gapsLt t rest

/-- The time of the last mutation of a timed sequence (`prev` if none). -/
def lastT : Nat → List (Nat × ClientMut) → Nat
  | prev, [] => prev
  | _, (t, _) :: rest => lastT t rest

/-! ### Concrete fixtures for the evaluation theorems -/

/-- A public document with a root node and one child `n1`, owned by
user `uo`; no collaborators. -/
def exDoc : MindMap :=
  { title := "t"
    description := ""
    nodes :=
      [ { id := "root", x := 0, y := 0, text := "Central Idea", level := 0,
          color := "#6366f1", createdBy := "owner", createdAt := 0,
          updatedAt := 0 },
        { id := "n1", x := 1, y := 1, text := "Idea", level := 1,
          color := "#ec4899", createdBy := "owner", createdAt := 0,
          updatedAt := 0 } ]
    links := [{ source := "root", target := "n1" }]
    comments := []
    owner := "uo"
    collaborators := []
    isPublic := true
    tags := []
    createdAt := 0
    updatedAt := 0
    lastModifiedBy := "uo" }

/-- Engine state before anyone joins: alice (session 1, user `ua`) and
bob (session 2, user `ub`) are connected but in no room. -/
def exStart : EngineState :=
  { db := [("m", exDoc)]
    activeUsers := []
    rooms := []
    sessions :=
      [ { sid := 1, userId := "ua", username := "alice",
          currentMindmap := none },
        { sid := 2, userId := "ub", username := "bob",
          currentMindmap := none } ]
    emitted := []
    dbWrites := 0 }

/-- alice has joined document `m`. -/
def exAfterA : EngineState := joinMindmap exStart 1 "m"

/-- alice joined document `m` and then disconnected. -/
def exAfterADisc : EngineState := disconnect exAfterA 1

/-- bob joins document `m` after alice (its last member) left. -/
def exAfterADiscB : EngineState := joinMindmap exAfterADisc 2 "m"

/-- bob joins document `m` while alice is still in the room. -/
def exAfterAB : EngineState := joinMindmap exAfterA 2 "m"

/-- A sample partial node update: change the text field only. -/
def exUpd : NodeUpdate := { text := some "changed" }

/-- A second sample partial node update: move the node. -/
def exUpd2 : NodeUpdate := { x := some 9 }

/-- A private document owned by `uo` with one write collaborator `uw` and
one read collaborator `ur`. -/
def exDocPriv : MindMap :=
  { exDoc with
      owner := "uo"
      collaborators :=
        [ { user := "uw", permission := CollabPerm.write },
          { user := "ur", permission := CollabPerm.read } ]
      isPublic := false }

/-- Engine state holding the private document under id `d` with nobody
connected. -/
def exStPriv : EngineState :=
  { db := [("d", exDocPriv)]
    activeUsers := []
    rooms := []
    sessions := []
    emitted := []
    dbWrites := 0 }

/-- A client document holding only the root node. -/
def exClientDoc : ClientDoc :=
  { nodes :=
      [{ id := "root", x := 0, y := 0, text := "Central Idea", level := 0,
         color := "#6366f1" }]
    links := [] }

/-- A new client node added during the example burst. -/
def exClientNodeA : ClientNode :=
  { id := "a", x := 1, y := 1, text := "A", level := 1, color := "#10b981" }

/-- A client document with the root node and the extra node `a`. -/
def exClientDoc2 : ClientDoc :=
  { nodes := exClientDoc.nodes ++ [exClientNodeA]
    links := [] }

/-- The clean autosave state over a document: no unsaved changes, no
pending timer, no saves performed. -/
def cleanAutosave (d : ClientDoc) : AutosaveState :=
  { doc := d, hasUnsavedChanges := false, saveTimeout := none, saves := [] }

/-- The tail of the example burst: add node `a` at time 100. -/
def exBurst : List (Nat × ClientMut) :=
  [(100, ClientMut.addNode "root" exClientNodeA)]

/-- A node object sent by a client in a `PUT` body, with no root node. -/
def exNodeInputA : NodeInput :=
  { id := "a", x := 2, y := 3, text := "A", level := 1, color := "#10b981" }

/-- A `PUT` body replacing the node list with the single non-root node. -/
def exPutBody : PutBody := { nodes := some [exNodeInputA] }

/-! ### Helper lemmas -/

theorem mem_broadcastTo {room : List SessionId} {sender r : SessionId}
    {ev ev' : ServerEvent} :
    (r, ev') ∈ broadcastTo room sender ev ↔
      r ∈ room ∧ r ≠ sender ∧ ev' = ev := by
  simp only [broadcastTo, List.mem_map, List.mem_filter, Prod.mk.injEq,
    decide_eq_true_eq]
  constructor
  · rintro ⟨a, ⟨ha, hans⟩, rfl, rfl⟩
    exact ⟨ha, hans, rfl⟩
  · rintro ⟨h1, h2, rfl⟩
    exact ⟨r, ⟨h1, h2⟩, rfl, rfl⟩

theorem lookup_setAssoc_self {β : Type} (l : List (String × β)) (k : String)
    (v : β) : (setAssoc l k v).lookup k = some v := by
  induction l with
  | nil => simp [setAssoc, List.lookup]
  | cons p rest ih =>
    obtain ⟨k', v'⟩ := p
    by_cases h : (k' == k) = true
    · simp [setAssoc, h, List.lookup]
    · have h2 : (k == k') = false := by
        rw [beq_eq_false_iff_ne]
        rw [Bool.not_eq_true, beq_eq_false_iff_ne] at h
        exact fun hkk => h hkk.symm
      simp only [setAssoc, h, Bool.false_eq_true, if_false, List.lookup_cons,
        h2, ih]

theorem countP_broadcastTo (room : List SessionId) (sender r : SessionId)
    (ev : ServerEvent) (hr : r ≠ sender) :
    (broadcastTo room sender ev).countP (fun p => p.1 == r) = room.count r := by
  simp only [broadcastTo]
  rw [List.countP_map]
  have hc : ((fun p : SessionId × ServerEvent => p.1 == r) ∘
      (fun a => (a, ev))) = (fun a => a == r) := rfl
  rw [hc, ← List.count_eq_countP]
  exact List.count_filter (by simp [hr])

/-! ### Claim theorems -/

/-- C1: the claim says that after the last member of a room disconnects,
the room's membership entry is reclaimed and a later joiner receives no
stale presence.  The code violates this: the disconnect handler removes
the departed user from the `activeUsers` set with a freshly constructed
`{id, username}` object literal, which JS `Set.delete` compares by
reference, so the entry is never removed and the room entry is never
reclaimed.  Evaluating the code: alice (session 1) joins document `m` and
disconnects; her `activeUsers` entry survives (while the socket.io room is
already empty), and bob (session 2), joining afterwards, is sent an
`active_users` list that still contains the departed alice. -/
theorem c1_stale_presence_eval :
    exAfterADisc.activeUsers.lookup "m"
      = some [{ id := "ua", username := "alice" }]
    ∧ exAfterADisc.rooms.lookup "m" = some []
    ∧ ((2 : SessionId), ServerEvent.activeUsersEv
        [{ id := "ua", username := "alice" },
         { id := "ub", username := "bob" }]) ∈ exAfterADiscB.emitted := by
  decide

/-- C2 counterexample: the claim says the joining client is sent exactly
the current members excluding itself.  In the code the joiner's own entry
is added to the `activeUsers` set before `active_users` is emitted, so the
list sent to the joiner includes the joiner: with alice already in the
room, bob receives `[alice, bob]`, not `[alice]`. -/
theorem c2_active_users_includes_joiner :
    exAfterAB.emitted.filter (fun p => p.1 == 2)
      = [(2, ServerEvent.activeUsersEv
            [{ id := "ua", username := "alice" },
             { id := "ub", username := "bob" }])]
    ∧ ([{ id := "ua", username := "alice" },
        { id := "ub", username := "bob" }] : List UserRef)
        ≠ [{ id := "ua", username := "alice" }] := by
  decide

/-- C2 (amended): on a successful join the joining client is sent, as
`active_users`, the previous member list plus its own entry (not
excluding itself), and every other session `r` receives the `user_joined`
event with the joiner's identity exactly as many times as `r` occurs in
the room — exactly once for a member that joined once. -/
theorem c2_join_events (st : EngineState) (sid : SessionId) (mmId : String)
    (s : Session) (mm : MindMap)
    (h1 : st.sessions.find? (fun t => t.sid == sid) = some s)
    (h2 : st.db.lookup mmId = some mm)
    (h3 : hasReadAccess s.userId mm = true) :
    (joinMindmap st sid mmId).emitted
      = st.emitted
        ++ broadcastTo (((st.rooms.lookup mmId).getD []) ++ [sid]) sid
            (ServerEvent.userJoined { id := s.userId, username := s.username })
        ++ [(sid, ServerEvent.activeUsersEv
              (((st.activeUsers.lookup mmId).getD [])
                ++ [{ id := s.userId, username := s.username }]))]
    ∧ ∀ r : SessionId, r ≠ sid →
        (broadcastTo (((st.rooms.lookup mmId).getD []) ++ [sid]) sid
            (ServerEvent.userJoined
              { id := s.userId, username := s.username })).countP
          (fun p => p.1 == r)
          = ((st.rooms.lookup mmId).getD []).count r := by
  constructor
  · simp [joinMindmap, h1, h2, h3]
  · intro r hr
    rw [countP_broadcastTo _ _ _ _ hr, List.count_append]
    simp [List.count_cons, hr]

/-- C2 witness: bob (session 2) joins document `m` while alice
(session 1) is in the room. -/
theorem c2_join_events_witness :
    (joinMindmap exAfterA 2 "m").emitted
      = exAfterA.emitted
        ++ broadcastTo (((exAfterA.rooms.lookup "m").getD []) ++ [2]) 2
            (ServerEvent.userJoined { id := "ub", username := "bob" })
        ++ [(2, ServerEvent.activeUsersEv
              (((exAfterA.activeUsers.lookup "m").getD [])
                ++ [{ id := "ub", username := "bob" }]))]
    ∧ (broadcastTo (((exAfterA.rooms.lookup "m").getD []) ++ [2]) 2
          (ServerEvent.userJoined { id := "ub", username := "bob" })).countP
        (fun p => p.1 == 1)
        = ((exAfterA.rooms.lookup "m").getD []).count 1 := by
  have h := c2_join_events exAfterA 2 "m"
    { sid := 2, userId := "ub", username := "bob", currentMindmap := none }
    exDoc (by decide) (by decide) (by decide)
  exact ⟨h.1, h.2 1 (by decide)⟩

/-- C3 counterexample: the claim says a `node_update` from a session whose
effective permission is below `write` is rejected with `AccessDenied`,
not broadcast, and leaves state unchanged.  The handler performs no
permission check at all: alice, a non-collaborator on a public document
(effective permission `read`), sends a `node_update`; it is broadcast to
bob and applied to the stored document. -/
theorem c3_no_permission_check_cex :
    permLevel (effectivePermission "ua" exDoc) = 1
    ∧ ((2 : SessionId),
        ServerEvent.nodeUpdated "n1" exUpd "alice")
        ∈ (nodeUpdate exAfterAB 1 "n1" exUpd 7).emitted
    ∧ (nodeUpdate exAfterAB 1 "n1" exUpd 7).dbWrites
        = exAfterAB.dbWrites + 1
    ∧ (((nodeUpdate exAfterAB 1 "n1" exUpd 7).db.lookup "m").map
        (fun m => m.nodes.map (fun n => n.text)))
        = some ["Central Idea", "changed"] := by
  decide

/-- C3 (amended): the engine performs no write-permission check on
`node_update`: even when the session user's effective permission on the
target document is below `write`, the event is broadcast to the other
room members, the update is merged into the stored document and saved,
and no error is emitted to anyone. -/
theorem c3_node_update_ignores_permission (st : EngineState)
    (sid : SessionId) (nodeId : String) (u : NodeUpdate) (now : Nat)
    (s : Session) (mmId : String) (mm : MindMap)
    (h1 : st.sessions.find? (fun t => t.sid == sid) = some s)
    (h2 : s.currentMindmap = some mmId)
    (h3 : st.db.lookup mmId = some mm)
    (h4 : mm.nodes.any (fun n => n.id == nodeId) = true)
    (h5 : permLevel (effectivePermission s.userId mm) < 2) :
    (nodeUpdate st sid nodeId u now).db
      = setAssoc st.db mmId
          { mm with
              nodes := updateFirstNode mm.nodes nodeId u
              updatedAt := now
              lastModifiedBy := s.userId }
    ∧ (nodeUpdate st sid nodeId u now).dbWrites = st.dbWrites + 1
    ∧ (nodeUpdate st sid nodeId u now).emitted
        = st.emitted
          ++ broadcastTo ((st.rooms.lookup mmId).getD []) sid
              (ServerEvent.nodeUpdated nodeId u s.username)
    ∧ ∀ msg r, (r, ServerEvent.errorMsg msg)
          ∈ (nodeUpdate st sid nodeId u now).emitted →
        (r, ServerEvent.errorMsg msg) ∈ st.emitted := by
  have hdb : nodeUpdateDb st.db mmId nodeId u s.userId now
      = (setAssoc st.db mmId
          { mm with
              nodes := updateFirstNode mm.nodes nodeId u
              updatedAt := now
              lastModifiedBy := s.userId }, true) := by
    simp [nodeUpdateDb, h3, h4]
  refine ⟨?_, ?_, ?_, ?_⟩
  · simp [nodeUpdate, h1, h2, hdb]
  · simp [nodeUpdate, h1, h2, hdb]
  · simp [nodeUpdate, h1, h2, hdb]
  · intro msg r hmem
    simp only [nodeUpdate, h1, h2, hdb] at hmem
    rcases List.mem_append.mp hmem with h | h
    · exact h
    · rcases mem_broadcastTo.mp h with ⟨_, _, hev⟩
      exact absurd hev (by simp)

/-- C3 witness: alice (read-only via the public flag) updates node `n1`. -/
theorem c3_node_update_ignores_permission_witness :
    (nodeUpdate exAfterAB 1 "n1" exUpd 7).db
      = setAssoc exAfterAB.db "m"
          { exDoc with
              nodes := updateFirstNode exDoc.nodes "n1" exUpd
              updatedAt := 7
              lastModifiedBy := "ua" }
    ∧ (nodeUpdate exAfterAB 1 "n1" exUpd 7).dbWrites
        = exAfterAB.dbWrites + 1
    ∧ (nodeUpdate exAfterAB 1 "n1" exUpd 7).emitted
        = exAfterAB.emitted
          ++ broadcastTo ((exAfterAB.rooms.lookup "m").getD []) 1
              (ServerEvent.nodeUpdated "n1" exUpd "alice")
    ∧ ∀ msg r, (r, ServerEvent.errorMsg msg)
          ∈ (nodeUpdate exAfterAB 1 "n1" exUpd 7).emitted →
        (r, ServerEvent.errorMsg msg) ∈ exAfterAB.emitted :=
  c3_node_update_ignores_permission exAfterAB 1 "n1" exUpd 7
    { sid := 1, userId := "ua", username := "alice",
      currentMindmap := some "m" }
    "m" exDoc (by decide) rfl (by decide) (by decide) (by decide)

/-- C4 counterexample: the claim says a `node_update` with an unknown
`nodeId` is rejected with `NotFound` surfaced to the originator and not
broadcast.  The handler broadcasts before consulting the database and
surfaces no error: an update to the non-existent node `zzz` is still
broadcast to bob, and the originator alice receives nothing at all. -/
theorem c4_unknown_node_broadcasts_cex :
    (nodeUpdate exAfterAB 1 "zzz" exUpd 7).emitted
      = exAfterAB.emitted ++ [(2, ServerEvent.nodeUpdated "zzz" exUpd "alice")]
    ∧ (nodeUpdate exAfterAB 1 "zzz" exUpd 7).dbWrites = 0
    ∧ (nodeUpdate exAfterAB 1 "zzz" exUpd 7).db = exAfterAB.db := by
  decide

/-- C4 (amended): a `node_update` whose `nodeId` does not exist in the
target document's node set performs no storage write and surfaces no
error to anyone — but the `node_updated` event is still broadcast to the
other room members (the broadcast happens before the node lookup). -/
theorem c4_unknown_node_behavior (st : EngineState) (sid : SessionId)
    (nodeId : String) (u : NodeUpdate) (now : Nat) (s : Session)
    (mmId : String) (mm : MindMap)
    (h1 : st.sessions.find? (fun t => t.sid == sid) = some s)
    (h2 : s.currentMindmap = some mmId)
    (h3 : st.db.lookup mmId = some mm)
    (h4 : mm.nodes.any (fun n => n.id == nodeId) = false) :
    (nodeUpdate st sid nodeId u now).db = st.db
    ∧ (nodeUpdate st sid nodeId u now).dbWrites = st.dbWrites
    ∧ (nodeUpdate st sid nodeId u now).emitted
        = st.emitted
          ++ broadcastTo ((st.rooms.lookup mmId).getD []) sid
              (ServerEvent.nodeUpdated nodeId u s.username)
    ∧ ∀ msg r, (r, ServerEvent.errorMsg msg)
          ∈ (nodeUpdate st sid nodeId u now).emitted →
        (r, ServerEvent.errorMsg msg) ∈ st.emitted := by
  have hdb : nodeUpdateDb st.db mmId nodeId u s.userId now = (st.db, false) := by
    simp [nodeUpdateDb, h3, h4]
  refine ⟨?_, ?_, ?_, ?_⟩
  · simp [nodeUpdate, h1, h2, hdb]
  · simp [nodeUpdate, h1, h2, hdb]
  · simp [nodeUpdate, h1, h2, hdb]
  · intro msg r hmem
    simp only [nodeUpdate, h1, h2, hdb] at hmem
    rcases List.mem_append.mp hmem with h | h
    · exact h
    · rcases mem_broadcastTo.mp h with ⟨_, _, hev⟩
      exact absurd hev (by simp)

/-- C4 witness: alice updates the non-existent node `zzz`. -/
theorem c4_unknown_node_behavior_witness :
    (nodeUpdate exAfterAB 1 "zzz" exUpd 7).db = exAfterAB.db
    ∧ (nodeUpdate exAfterAB 1 "zzz" exUpd 7).dbWrites = exAfterAB.dbWrites
    ∧ (nodeUpdate exAfterAB 1 "zzz" exUpd 7).emitted
        = exAfterAB.emitted
          ++ broadcastTo ((exAfterAB.rooms.lookup "m").getD []) 1
              (ServerEvent.nodeUpdated "zzz" exUpd "alice")
    ∧ ∀ msg r, (r, ServerEvent.errorMsg msg)
          ∈ (nodeUpdate exAfterAB 1 "zzz" exUpd 7).emitted →
        (r, ServerEvent.errorMsg msg) ∈ exAfterAB.emitted :=
  c4_unknown_node_behavior exAfterAB 1 "zzz" exUpd 7
    { sid := 1, userId := "ua", username := "alice",
      currentMindmap := some "m" }
    "m" exDoc (by decide) rfl (by decide) (by decide)

/-- C6: every `node_update` on a valid node from a room member is
delivered as `node_updated`, with the `nodeId` and `updates` unchanged, to
every other current member of the room, and the originating session never
receives any event back from its own update. -/
theorem c6_relay_to_others (st : EngineState) (sid : SessionId)
    (nodeId : String) (u : NodeUpdate) (now : Nat) (s : Session)
    (mmId : String) (mm : MindMap)
    (h1 : st.sessions.find? (fun t => t.sid == sid) = some s)
    (h2 : s.currentMindmap = some mmId)
    (h3 : st.db.lookup mmId = some mm)
    (h4 : mm.nodes.any (fun n => n.id == nodeId) = true) :
    (∀ r, r ∈ (st.rooms.lookup mmId).getD [] → r ≠ sid →
        (r, ServerEvent.nodeUpdated nodeId u s.username)
          ∈ (nodeUpdate st sid nodeId u now).emitted)
    ∧ ∀ ev, (sid, ev) ∈ (nodeUpdate st sid nodeId u now).emitted →
        (sid, ev) ∈ st.emitted := by
  have hemit : (nodeUpdate st sid nodeId u now).emitted
      = st.emitted
        ++ broadcastTo ((st.rooms.lookup mmId).getD []) sid
            (ServerEvent.nodeUpdated nodeId u s.username) := by
    simp [nodeUpdate, h1, h2]
  constructor
  · intro r hr hrs
    rw [hemit]
    exact List.mem_append_right _ (mem_broadcastTo.mpr ⟨hr, hrs, rfl⟩)
  · intro ev hev
    rw [hemit] at hev
    rcases List.mem_append.mp hev with h | h
    · exact h
    · rcases mem_broadcastTo.mp h with ⟨_, hne, _⟩
      exact absurd rfl hne

/-- C6 witness: alice updates node `n1`; bob (the other member) receives
the event and alice receives nothing. -/
theorem c6_relay_to_others_witness :
    ((2 : SessionId), ServerEvent.nodeUpdated "n1" exUpd "alice")
      ∈ (nodeUpdate exAfterAB 1 "n1" exUpd 7).emitted
    ∧ ¬ ((1 : SessionId), ServerEvent.nodeUpdated "n1" exUpd "alice")
        ∈ (nodeUpdate exAfterAB 1 "n1" exUpd 7).emitted := by
  have h := c6_relay_to_others exAfterAB 1 "n1" exUpd 7
    { sid := 1, userId := "ua", username := "alice",
      currentMindmap := some "m" }
    "m" exDoc (by decide) rfl (by decide) (by decide)
  refine ⟨h.1 2 (by decide) (by decide), fun hmem => ?_⟩
  exact absurd (h.2 _ hmem) (by decide)

/-- C10: a `node_update` or `cursor_move` from an authenticated session
that has not joined any room (its `currentMindmap` is unset) is silently
dropped: the engine state — document store, membership, rooms, emit log,
write count — is completely unchanged and no error is sent back. -/
theorem c10_silent_drop (st : EngineState) (sid : SessionId) (s : Session)
    (nodeId : String) (u : NodeUpdate) (now : Nat) (x y : Int)
    (h1 : st.sessions.find? (fun t => t.sid == sid) = some s)
    (h2 : s.currentMindmap = none) :
    nodeUpdate st sid nodeId u now = st ∧ cursorMove st sid x y = st := by
  constructor
  · simp [nodeUpdate, h1, h2]
  · simp [cursorMove, h1, h2]

/-- C10 witness: alice before any join sends `node_update` and
`cursor_move`; the state is unchanged. -/
theorem c10_silent_drop_witness :
    nodeUpdate exStart 1 "n1" exUpd 7 = exStart
    ∧ cursorMove exStart 1 3 4 = exStart :=
  c10_silent_drop exStart 1
    { sid := 1, userId := "ua", username := "alice", currentMindmap := none }
    "n1" exUpd 7 3 4 (by decide) rfl

/-- C7: a `comment_add` with empty or whitespace-only text is rejected
with `InvalidInput` and nothing changes; with non-empty trimmed text and
at least read access, the trimmed text is appended to the node's comment
sequence with the generated id `Date.now().toString()` and the timestamp,
and the `comment_added` event is relayed to the room. -/
theorem c7_comment_add_spec (st : EngineState)
    (userId username mmId nodeId text : String) (now : Nat) :
    (jsTrim text = "" →
      addComment st userId username mmId nodeId text now
        = (Except.error ApiError.invalidInput, st))
    ∧ ∀ mm, st.db.lookup mmId = some mm → hasReadAccess userId mm = true →
        jsTrim text ≠ "" →
        (addComment st userId username mmId nodeId text now).1
            = Except.ok
                { id := toString now, text := jsTrim text, author := username,
                  authorId := userId, timestamp := now }
          ∧ (((addComment st userId username mmId nodeId text now).2.db.lookup
                mmId).map (fun m => (m.comments.lookup nodeId).getD []))
              = some (((mm.comments.lookup nodeId).getD [])
                  ++ [{ id := toString now, text := jsTrim text,
                        author := username, authorId := userId,
                        timestamp := now }])
          ∧ (addComment st userId username mmId nodeId text now).2.emitted
              = st.emitted
                ++ broadcastAll ((st.rooms.lookup mmId).getD [])
                    (ServerEvent.commentAdded nodeId
                      { id := toString now, text := jsTrim text,
                        author := username, authorId := userId,
                        timestamp := now }) := by
  constructor
  · intro hempty
    simp [addComment, hempty]
  · intro mm hdb hacc hne
    have hb : (jsTrim text == "") = false := beq_eq_false_iff_ne.mpr hne
    refine ⟨?_, ?_, ?_⟩
    · simp [addComment, hb, hdb, hacc]
    · simp [addComment, hb, hdb, hacc, lookup_setAssoc_self]
    · simp [addComment, hb, hdb, hacc]

/-- C7 witness: a whitespace-only comment is rejected with the state
unchanged, and a comment with text to trim is appended to `n1` and
relayed to the members of the room. -/
theorem c7_comment_add_spec_witness :
    addComment exAfterAB "ua" "alice" "m" "n1" "   " 9
      = (Except.error ApiError.invalidInput, exAfterAB)
    ∧ (addComment exAfterAB "ua" "alice" "m" "n1" " hi " 9).1
        = Except.ok
            { id := toString 9, text := "hi", author := "alice",
              authorId := "ua", timestamp := 9 }
    ∧ (((addComment exAfterAB "ua" "alice" "m" "n1" " hi " 9).2.db.lookup
          "m").map (fun m => (m.comments.lookup "n1").getD []))
        = some (((exDoc.comments.lookup "n1").getD [])
            ++ [{ id := toString 9, text := "hi", author := "alice",
                  authorId := "ua", timestamp := 9 }])
    ∧ (addComment exAfterAB "ua" "alice" "m" "n1" " hi " 9).2.emitted
        = exAfterAB.emitted
          ++ broadcastAll ((exAfterAB.rooms.lookup "m").getD [])
              (ServerEvent.commentAdded "n1"
                { id := toString 9, text := "hi", author := "alice",
                  authorId := "ua", timestamp := 9 }) := by
  have h1 := (c7_comment_add_spec exAfterAB "ua" "alice" "m" "n1" "   " 9).1
    (by decide)
  have h2 := (c7_comment_add_spec exAfterAB "ua" "alice" "m" "n1" " hi " 9).2
    exDoc (by decide) (by decide) (by decide)
  exact ⟨h1, h2.1, h2.2.1, h2.2.2⟩

/-- The `canEdit` test of the source agrees, for a document without a
duplicated collaborator entry for the user, with the spec's effective
permission being at least `write`. -/
theorem canEdit_iff_effWrite (userId : String) (mm : MindMap)
    (hnd : ∀ c₁, c₁ ∈ mm.collaborators → ∀ c₂, c₂ ∈ mm.collaborators →
      c₁.user = userId → c₂.user = userId → c₁ = c₂) :
    canEditMindmap userId mm = true
      ↔ 2 ≤ permLevel (effectivePermission userId mm) := by
  by_cases how : (mm.owner == userId) = true
  · simp [canEditMindmap, how, effectivePermission, permLevel]
  · simp only [canEditMindmap, how, Bool.false_or, effectivePermission,
      Bool.not_eq_true] at *
    rw [if_neg (by simp [how])]
    cases hf : mm.collaborators.find? (fun c => c.user == userId) with
    | none =>
      have hnone := List.find?_eq_none.mp hf
      constructor
      · intro hany
        rw [List.any_eq_true] at hany
        obtain ⟨c, hc, hpc⟩ := hany
        simp only [Bool.and_eq_true, beq_iff_eq] at hpc
        exact absurd (by simp [hpc.1]) (hnone c hc)
      · intro hlev
        by_cases hp : mm.isPublic <;> simp [hp, permLevel] at hlev
    | some c =>
      have hcu : c.user = userId := by
        have := List.find?_some hf
        simpa using this
      have hcm : c ∈ mm.collaborators := List.mem_of_find?_eq_some hf
      constructor
      · intro hany
        rw [List.any_eq_true] at hany
        obtain ⟨c', hc', hpc'⟩ := hany
        simp only [Bool.and_eq_true, beq_iff_eq, Bool.or_eq_true] at hpc'
        have hcc : c' = c := hnd c' hc' c hcm hpc'.1 hcu
        subst hcc
        rcases hpc'.2 with h | h <;>
          simp_all [permOfCollab, permLevel]
      · intro hlev
        rw [List.any_eq_true]
        refine ⟨c, hcm, ?_⟩
        simp only [Bool.and_eq_true, beq_iff_eq, Bool.or_eq_true]
        refine ⟨hcu, ?_⟩
        cases hcp : c.permission <;>
          simp_all [permOfCollab, permLevel]

/-- The read-access test of the source agrees with the spec's effective
permission being at least `read`. -/
theorem hasRead_iff_effRead (userId : String) (mm : MindMap) :
    hasReadAccess userId mm = true
      ↔ 1 ≤ permLevel (effectivePermission userId mm) := by
  by_cases how : (mm.owner == userId) = true
  · simp [hasReadAccess, how, effectivePermission, permLevel]
  · simp only [hasReadAccess, how, Bool.false_or, Bool.or_eq_true,
      effectivePermission]
    rw [if_neg (by simp [how])]
    cases hf : mm.collaborators.find? (fun c => c.user == userId) with
    | none =>
      have hnone := List.find?_eq_none.mp hf
      constructor
      · rintro (hany | hp)
        · rw [List.any_eq_true] at hany
          obtain ⟨c, hc, hpc⟩ := hany
          exact absurd hpc (hnone c hc)
        · simp [hp, permLevel]
      · intro hlev
        by_cases hp : mm.isPublic
        · right; exact hp
        · simp [hp, permLevel] at hlev
    | some c =>
      have hcm : c ∈ mm.collaborators := List.mem_of_find?_eq_some hf
      have hcu := List.find?_some hf
      constructor
      · intro _
        cases hcp : c.permission <;> simp [hcp, permOfCollab, permLevel]
      · intro _
        left
        rw [List.any_eq_true]
        exact ⟨c, hcm, hcu⟩

/-- The spec's effective permission is `owner` exactly for the document
owner. -/
theorem eff_owner_iff (userId : String) (mm : MindMap) :
    effectivePermission userId mm = EffectivePerm.owner
      ↔ (mm.owner == userId) = true := by
  by_cases how : (mm.owner == userId) = true
  · simp [effectivePermission, how]
  · rw [effectivePermission, if_neg (by simp [how])]
    simp only [how, iff_false]
    cases hf : mm.collaborators.find? (fun c => c.user == userId) with
    | none => by_cases hp : mm.isPublic <;> simp [hp]
    | some c => cases hcp : c.permission <;> simp [hcp, permOfCollab]

/-- C8: the Access Gate.  For a document whose collaborator list has no
duplicate entry for the user: the spec's effective permission is
`owner` exactly when the user owns the document; the source's `canEdit`
(gate of the write-level document update) holds exactly when the
effective permission is at least `write`; the source's read-access test
holds exactly when it is at least `read`; the document update succeeds
exactly under `canEdit`; and deletion succeeds exactly for the owner. -/
theorem c8_access_gate (st : EngineState) (userId username mmId : String)
    (body : PutBody) (now : Nat) (mm : MindMap)
    (hdb : st.db.lookup mmId = some mm)
    (hnd : ∀ c₁, c₁ ∈ mm.collaborators → ∀ c₂, c₂ ∈ mm.collaborators →
      c₁.user = userId → c₂.user = userId → c₁ = c₂) :
    (effectivePermission userId mm = EffectivePerm.owner
        ↔ (mm.owner == userId) = true)
    ∧ (canEditMindmap userId mm = true
        ↔ 2 ≤ permLevel (effectivePermission userId mm))
    ∧ (hasReadAccess userId mm = true
        ↔ 1 ≤ permLevel (effectivePermission userId mm))
    ∧ exceptOk (putMindmap st userId username mmId body now).1
        = canEditMindmap userId mm
    ∧ exceptOk (deleteMindmap st userId mmId).1 = (mm.owner == userId) := by
  refine ⟨eff_owner_iff userId mm, canEdit_iff_effWrite userId mm hnd,
    hasRead_iff_effRead userId mm, ?_, ?_⟩
  · cases hce : canEditMindmap userId mm <;>
      simp [putMindmap, hdb, hce, exceptOk]
  · cases how : (mm.owner == userId) <;>
      simp [deleteMindmap, hdb, how, exceptOk]

/-- C8 witness: the write collaborator `uw` on the private document may
update but not delete; its effective permission is `write`. -/
theorem c8_access_gate_witness :
    (effectivePermission "uw" exDocPriv = EffectivePerm.owner
        ↔ (exDocPriv.owner == "uw") = true)
    ∧ (canEditMindmap "uw" exDocPriv = true
        ↔ 2 ≤ permLevel (effectivePermission "uw" exDocPriv))
    ∧ (hasReadAccess "uw" exDocPriv = true
        ↔ 1 ≤ permLevel (effectivePermission "uw" exDocPriv))
    ∧ exceptOk (putMindmap exStPriv "uw" "walter" "d" exPutBody 5).1
        = canEditMindmap "uw" exDocPriv
    ∧ exceptOk (deleteMindmap exStPriv "uw" "d").1
        = (exDocPriv.owner == "uw") :=
  c8_access_gate exStPriv "uw" "walter" "d" exPutBody 5 exDocPriv
    (by decide) (by decide)

/-- C9 counterexample: the claim says no operation can remove the root
node.  The document-update endpoint replaces the node list wholesale with
the client-supplied list and checks nothing about the root: the owner
updates document `m` (which contains `root`) with a body whose node list
is `[a]`, the update succeeds, and the stored document no longer contains
a node with id `root`. -/
theorem c9_put_removes_root_cex :
    ((exStart.db.lookup "m").map (fun m => m.nodes.map (fun n => n.id)))
      = some ["root", "n1"]
    ∧ exceptOk (putMindmap exStart "uo" "owner" "m" exPutBody 5).1 = true
    ∧ (((putMindmap exStart "uo" "owner" "m" exPutBody 5).2.db.lookup
          "m").map (fun m => m.nodes.map (fun n => n.id)))
        = some ["a"] := by
  decide

/-- C9 (amended): the client-side `deleteNode` never removes the root
node (it is a no-op on the root and otherwise filters only the selected
non-root id), but the document-update endpoint enforces no root
invariant: it replaces the stored node set with exactly the processed
client-supplied node list. -/
theorem c9_root_amended :
    (∀ (d : ClientDoc) (selId : String),
        d.nodes.any (fun n => n.id == "root") = true →
        (applyMut d (ClientMut.deleteNode selId)).nodes.any
            (fun n => n.id == "root") = true)
    ∧ ∀ (st : EngineState) (userId username mmId : String) (body : PutBody)
        (now : Nat) (mm : MindMap) (ns : List NodeInput),
        st.db.lookup mmId = some mm → canEditMindmap userId mm = true →
        body.nodes = some ns →
        (((putMindmap st userId username mmId body now).2.db.lookup
            mmId).map MindMap.nodes)
          = some (ns.map (processNodeInput username now)) := by
  constructor
  · intro d selId hroot
    by_cases hsel : (selId == "root") = true
    · simpa [applyMut, hsel] using hroot
    · have hne : selId ≠ "root" := by
        rw [Bool.not_eq_true, beq_eq_false_iff_ne] at hsel
        exact hsel
      rw [List.any_eq_true] at hroot
      obtain ⟨n, hn, hid⟩ := hroot
      have hid' : n.id = "root" := by simpa using hid
      simp only [applyMut, hsel, Bool.false_eq_true, if_false]
      rw [List.any_eq_true]
      refine ⟨n, List.mem_filter.mpr ⟨hn, ?_⟩, hid⟩
      simp only [hid', ne_eq, decide_eq_true_eq]
      exact fun h => hne h.symm
  · intro st userId username mmId body now mm ns hdb hce hns
    rcases body with ⟨bt, bd, bn, bl, bp, btg⟩
    simp only at hns
    subst hns
    cases bl <;> cases bp <;> cases btg <;>
      simp [putMindmap, hdb, hce, lookup_setAssoc_self]

/-- While the unsaved-changes flag is set and every remaining mutation
arrives before the pending timer expires, running the mutations only
accumulates document changes and re-arms the timer: no save fires. -/
theorem runMuts_steady (evs : List (Nat × ClientMut)) :
    ∀ (d : ClientDoc) (saves : List ClientDoc) (prev : Nat),
      gapsLt prev evs = true →
      runMuts { doc := d, hasUnsavedChanges := true
                saveTimeout := some (prev + quietPeriod)
                saves := saves } evs
        = { doc := applyMuts d evs, hasUnsavedChanges := true
            saveTimeout := some (lastT prev evs + quietPeriod)
            saves := saves } := by
  induction evs with
  | nil =>
    intro d saves prev _
    rfl
  | cons tm rest ih =>
    obtain ⟨t, m⟩ := tm
    intro d saves prev hg
    simp only [gapsLt, Bool.and_eq_true, decide_eq_true_eq] at hg
    obtain ⟨⟨hle, hlt⟩, hrest⟩ := hg
    have hnf : ¬ (prev + quietPeriod ≤ t) := by omega
    show runMuts (stepMut _ t m) rest = _
    have hstep : stepMut { doc := d
                           hasUnsavedChanges := true
                           saveTimeout := some (prev + quietPeriod)
                           saves := saves } t m
        = { doc := applyMut d m
            hasUnsavedChanges := true
            saveTimeout := some (t + quietPeriod)
            saves := saves } := by
      simp only [stepMut]
      rw [if_neg hnf]
      rfl
    rw [hstep, ih _ _ _ hrest]
    simp [applyMuts, lastT]

/-- C5 counterexample: the claim says a burst of N mutations within the
quiet period causes exactly one durable write.  The backend `node_update`
handler saves the document on every event: two updates to `n1` arriving
one time unit apart (far less than the 2000 ms quiet period) perform two
durable writes. -/
theorem c5_two_updates_two_writes_cex :
    (nodeUpdate (nodeUpdate exAfterAB 1 "n1" exUpd 0) 1 "n1" exUpd2 1).dbWrites
      = 2
    ∧ 1 - 0 < quietPeriod := by
  decide

/-- C5 (amended): the client-side autosave debounces a burst of N ≥ 1
local mutations, each arriving within less than the quiet period after
the previous one, into exactly one full-document replace whose snapshot
is the cumulative effect of all N mutations (no save fires during the
burst; the final timer expiry performs the single save, provided the node
list is then non-empty).  The backend `node_update` path, however, is not
debounced: every relayed mutation that targets an existing node performs
one durable save of its own. -/
theorem c5_burst_single_client_save :
    (∀ (d0 : ClientDoc) (t0 : Nat) (m0 : ClientMut)
        (rest : List (Nat × ClientMut)),
        gapsLt t0 rest = true →
        (applyMuts (applyMut d0 m0) rest).nodes ≠ [] →
        (runMuts (stepMut (cleanAutosave d0) t0 m0) rest).saves = []
        ∧ (fireTimer (runMuts (stepMut (cleanAutosave d0) t0 m0)
              rest)).saves
            = [applyMuts (applyMut d0 m0) rest])
    ∧ ∀ (st : EngineState) (sid : SessionId) (nodeId : String)
        (u : NodeUpdate) (now : Nat) (s : Session) (mmId : String)
        (mm : MindMap),
        st.sessions.find? (fun t => t.sid == sid) = some s →
        s.currentMindmap = some mmId →
        st.db.lookup mmId = some mm →
        mm.nodes.any (fun n => n.id == nodeId) = true →
        (nodeUpdate st sid nodeId u now).dbWrites = st.dbWrites + 1 := by
  constructor
  · intro d0 t0 m0 rest hg hne
    have hstep : stepMut (cleanAutosave d0) t0 m0
        = { doc := applyMut d0 m0
            hasUnsavedChanges := true
            saveTimeout := some (t0 + quietPeriod)
            saves := [] } := rfl
    rw [hstep, runMuts_steady rest _ _ _ hg]
    refine ⟨rfl, ?_⟩
    have hie : (applyMuts (applyMut d0 m0) rest).nodes.isEmpty = false := by
      cases hnn : (applyMuts (applyMut d0 m0) rest).nodes with
      | nil => exact absurd hnn hne
      | cons a l => rfl
    simp [fireTimer, hie]
  · intro st sid nodeId u now s mmId mm h1 h2 h3 h4
    have hdb : (nodeUpdateDb st.db mmId nodeId u s.userId now).2 = true := by
      simp [nodeUpdateDb, h3, h4]
    simp [nodeUpdate, h1, h2, hdb]

/-- C5 witness: a two-mutation burst (edit the root text at time 0, add a
node at time 100) produces no save during the burst and exactly one save,
holding the cumulative document, at timer expiry; and one backend
`node_update` on `n1` performs exactly one durable save. -/
theorem c5_burst_single_client_save_witness :
    (runMuts (stepMut (cleanAutosave exClientDoc) 0
        (ClientMut.saveEdit "root" "X")) exBurst).saves = []
    ∧ (fireTimer (runMuts (stepMut (cleanAutosave exClientDoc) 0
          (ClientMut.saveEdit "root" "X")) exBurst)).saves
        = [applyMuts (applyMut exClientDoc (ClientMut.saveEdit "root" "X"))
            exBurst]
    ∧ (nodeUpdate exAfterAB 1 "n1" exUpd 7).dbWrites
        = exAfterAB.dbWrites + 1 := by
  have h1 := c5_burst_single_client_save.1 exClientDoc 0
    (ClientMut.saveEdit "root" "X") exBurst (by decide) (by decide)
  have h2 := c5_burst_single_client_save.2 exAfterAB 1 "n1" exUpd 7
    { sid := 1, userId := "ua", username := "alice",
      currentMindmap := some "m" }
    "m" exDoc (by decide) rfl (by decide) (by decide)
  exact ⟨h1.1, h1.2, h2⟩

/-- C9 witness: deleting node `a` from a client document keeps its root,
and the owner's node-replacing update stores exactly the processed list. -/
theorem c9_root_amended_witness :
    exClientDoc2.nodes.any (fun n => n.id == "root") = true
    ∧ (applyMut exClientDoc2 (ClientMut.deleteNode "a")).nodes.any
        (fun n => n.id == "root") = true
    ∧ (((putMindmap exStart "uo" "owner" "m" exPutBody 5).2.db.lookup
          "m").map MindMap.nodes)
        = some ([exNodeInputA].map (processNodeInput "owner" 5)) := by
  refine ⟨by decide, ?_, ?_⟩
  · exact c9_root_amended.1 exClientDoc2 "a" (by decide)
  · exact c9_root_amended.2 exStart "uo" "owner" "m" exPutBody 5 exDoc
      [exNodeInputA] (by decide) (by decide) rfl

end ThinkNet
